import Mathlib

/-!
# Verification of the devflow version-computation core

Shallow embedding of `src/devflow/versioning.py`: branch classification
(`normalize_branch_name`, `get_branch_type`), the branch-type registry
(`BRANCH_TYPES`), the version generator (`python_version`), the commit
identifier derivation (`get_commit_id`) and the Debian version mapper
(`debian_version_from_python_version`), together with theorems settling
the specification claims.

Strings are modelled by Lean `String` (a wrapper around `List Char`);
the Python regular expressions of the source are embedded as executable
matchers over `List Char`, with the translation argument documented at
each definition.  The two external version-comparison algorithms that
the repository's doctests appeal to (the setuptools / PEP 386
`parse_version` ordering and the dpkg version comparison) are not part
of the repository; they are modelled from the spec in the clearly
marked section below.
-/

namespace Devflow

/-! ## List utilities mirroring Python string primitives -/

/-- Python `str.split(sep)` for a one-character separator: splits on every
occurrence of `sep`, keeping empty fragments, and always returns at least
one (possibly empty) fragment. -/
def pySplit (sep : Char) : List Char → List (List Char)
  | [] => [[]]
  | c :: cs =>
    if c = sep then [] :: pySplit sep cs
    else
      match pySplit sep cs with
      | g :: gs => (c :: g) :: gs
      | [] => [[c]]

/-- `pySplit` over `String`, mirroring Python `s.split("-")` etc. -/
def pySplitStr (sep : Char) (s : String) : List String :=
  (pySplit sep s.data).map String.mk

/-- Python `str.replace(old, new)` (all occurrences, scanning left to
right, non-overlapping) for a one-character pattern `o`. -/
def pyReplaceChar (o : Char) (new : List Char) : List Char → List Char
  | [] => []
  | c :: cs =>
    if c = o then new ++ pyReplaceChar o new cs
    else c :: pyReplaceChar o new cs

/-- Python `str.replace("rc", new)` (all occurrences, scanning left to
right, non-overlapping). -/
def pyReplaceRc (new : List Char) : List Char → List Char
  | [] => []
  | [c] => [c]
  | c :: c2 :: cs =>
    if c = 'r' ∧ c2 = 'c' then new ++ pyReplaceRc new cs
    else c :: pyReplaceRc new (c2 :: cs)

/-! ## Branch classification (`normalize_branch_name`, `get_branch_type`) -/

/-- `normalize_branch_name` from the source: `"debian"` is first rewritten
to `"debian-master"`, and then a leading `"debian-"` is removed.  (The
source uses `brnorm.replace("debian-", "", 1)` guarded by
`brnorm.startswith("debian-")`; under that guard the first occurrence is
the 7-character prefix, so removing it is dropping 7 characters.) -/
def normalize_branch_name (branch_name : String) : String :=
  let brnorm := if branch_name = "debian" then "debian-master" else branch_name
  if "debian-".data.isPrefixOf brnorm.data then ⟨brnorm.data.drop 7⟩ else brnorm

/-- `get_branch_type` from the source: the part of the branch name before
the first `"-"` when the name contains one (`branch_name.split("-")[0]`),
otherwise the whole name. -/
def get_branch_type (branch_name : String) : String :=
  if branch_name.data.contains '-' then (pySplitStr '-' branch_name).headD ""
  else branch_name

/-! ## The base-version regular expressions as executable matchers

`VERSION_RE = "[0-9]+\.[0-9]+(\.[0-9]+)*"` describes one-or-more
dot-separated digit groups, at least two groups.  A string fully matches
`VERSION_RE` iff splitting it on `'.'` yields at least two fragments, all
of them non-empty and all-digit (no leading/trailing dot, no empty
group). -/

/-- A non-empty all-digit fragment (`[0-9]+`). -/
def isDigitGroup (g : List Char) : Bool :=
  !g.isEmpty && g.all Char.isDigit

/-- Full match of `VERSION_RE` (`[0-9]+\.[0-9]+(\.[0-9]+)*` anchored at
both ends). -/
def isSemverL (s : List Char) : Bool :=
  let gs := pySplit '.' s
  decide (2 ≤ gs.length) && gs.all isDigitGroup

/-- Full match of `[1-9][0-9]*`: a positive integer with no leading zero. -/
def isPosIntL (g : List Char) : Bool :=
  match g with
  | c :: cs => ('1' ≤ c && c ≤ '9') && cs.all Char.isDigit
  | [] => false

/-- A digit or a dot — the only characters `VERSION_RE` can consume. -/
def digitDot (c : Char) : Bool :=
  c.isDigit || c = '.'

/-- `re.match(VERSION_RE, s)` — an *unanchored* prefix match, as used by
the well-formedness check on the branch-name version fragment.  The
regex engine takes the maximal digit run at the start of `s`; it matches
iff that run is non-empty, is followed by `'.'`, and the dot is followed
by at least one digit (the trailing `(\.[0-9]+)*` can match zero
repetitions, and backtracking the first `[0-9]+` to a shorter run always
leaves a digit, never a `'.'`, as the next character). -/
def hasVersionPrefix (s : List Char) : Bool :=
  match s with
  | c :: cs =>
    c.isDigit &&
      (match cs.dropWhile Char.isDigit with
       | '.' :: d :: _ => d.isDigit
       | _ => false)
  | [] => false

/-- Full match of `^VERSION_RE next$` (feature/develop branches).  The
semver part consumes exactly the digit/dot prefix (the literal `next`
starts with a letter), so the string matches iff its maximal digit/dot
prefix is a semver and the remainder is exactly `"next"`. -/
def matchNextL (s : List Char) : Bool :=
  isSemverL (s.takeWhile digitDot) && s.dropWhile digitDot = "next".data

/-- Full match of `^(?P<bverstr>VERSION_RE)rc[1-9][0-9]*$` (release
branches), returning the captured group.  The semver part consumes
exactly the digit/dot prefix (the literal `rc` starts with a letter), and
the counter after `rc` must be digits only, with no leading zero. -/
def matchReleaseL (s : List Char) : Option (List Char) :=
  match s.dropWhile digitDot with
  | 'r' :: 'c' :: num =>
    if isSemverL (s.takeWhile digitDot) && isPosIntL num then
      some (s.takeWhile digitDot)
    else none
  | _ => none

/-- Full match of `^(?P<bverstr>^VERSION_RE\.[1-9][0-9]*)$` (hotfix
branches).  The capture is the whole string.  Backtracking the greedy
semver part forces the split at the last dot, so the string matches iff
it is at least three dot-separated all-digit groups whose last group is a
positive integer without leading zero. -/
def matchHotfixL (s : List Char) : Bool :=
  let gs := pySplit '.' s
  decide (3 ≤ gs.length) && gs.dropLast.all isDigitGroup && isPosIntL (gs.getLastD [])

/-- The four `allowed_version_re` patterns appearing in `BRANCH_TYPES`. -/
inductive BaseVersionRe where
  | nextRe    -- "^VERSION_RE next$"          (feature, develop)
  | releaseRe -- "^(?P<bverstr>VERSION_RE)rc[1-9][0-9]*$"
  | masterRe  -- "^VERSION_RE$"
  | hotfixRe  -- "^(?P<bverstr>^VERSION_RE\.[1-9][0-9]*)$"
deriving DecidableEq

/-- `re.match(btype.allowed_version_re, base_version)`: `none` when the
pattern does not match; on a match, the value of `groupdict()["bverstr"]`
(present exactly for the two capturing patterns). -/
def matchAllowed : BaseVersionRe → String → Option (Option String)
  | .nextRe, s => if matchNextL s.data then some none else none
  | .releaseRe, s =>
    match matchReleaseL s.data with
    | some cap => some (some ⟨cap⟩)
    | none => none
  | .masterRe, s => if isSemverL s.data then some none else none
  | .hotfixRe, s => if matchHotfixL s.data then some (some s) else none

/-! ## The branch-type registry (`BRANCH_TYPES`) -/

/-- The `branch_type` namedtuple of the source. -/
structure Branch_type where
  builds_snapshot : Bool
  builds_release : Bool
  versioned : Bool
  allowed_version_re : BaseVersionRe
deriving DecidableEq

/-- The `BRANCH_TYPES` dictionary; lookup of an unknown tag fails. -/
def BRANCH_TYPES : String → Option Branch_type
  | "feature" => some ⟨true, false, false, .nextRe⟩
  | "develop" => some ⟨true, false, false, .nextRe⟩
  | "release" => some ⟨true, true, true, .releaseRe⟩
  | "master" => some ⟨false, true, false, .masterRe⟩
  | "hotfix" => some ⟨true, true, true, .hotfixRe⟩
  | _ => none

/-! ## Errors raised by the version generator

One constructor per `raise` site of `python_version`, carrying the data
interpolated into the corresponding Python error message. -/

inductive VersionError where
  /-- `"Malformed branch name '%s', cannot classify as one of %s"`
  (unknown branch-type tag). -/
  | malformedBranchName (btypestr : String)
  /-- `"Branch name '%s' should contain version"` (versioned branch with
  no `-`-separated fragment after the tag). -/
  | missingBranchVersion (branch : String)
  /-- `"Malformed version '%s' in branch name '%s'"` (fragment failing
  the `re.match(VERSION_RE, ...)` prefix check). -/
  | malformedBranchVersion (bverstr branch : String)
  /-- `"Base version '%s' unsuitable for branch name '%s'"` (pattern
  mismatch, or captured group differing from the branch fragment). -/
  | baseVersionUnsuitable (base_version branch : String)
  /-- `"Specified mode '%s' should be one of 'snapshot' or 'release'"`. -/
  | invalidMode (mode : String)
  /-- `"Invalid mode '%s' in branch type '%s'"`. -/
  | modeNotAllowed (mode btypestr : String)
deriving DecidableEq

/-- The `vcs_info` namedtuple (`branch`, `revid`, `revno`, `toplevel`).
`revno` is a commit count, hence a natural number. -/
structure VcsInfo where
  branch : String
  revid : String
  revno : Nat
  toplevel : String
deriving DecidableEq

/-- The tail of `python_version` after all branch/base-version checks
have passed: validate `mode`, check it against the branch type's
capability flags, and build the version string
(`"%s_%d_%s" % (base_version, vcs.revno, vcs.revid)` in snapshot mode,
`base_version` unchanged in release mode). -/
def build_version (btype : Branch_type) (btypestr base_version : String)
    (vcs : VcsInfo) (mode : String) : Except VersionError String :=
  if mode ≠ "snapshot" && mode ≠ "release" then
    .error (.invalidMode mode)
  else if ((mode == "snapshot") && !btype.builds_snapshot)
      || (!(mode == "snapshot") && !btype.builds_release) then
    .error (.modeNotAllowed mode btypestr)
  else if mode == "snapshot" then
    .ok (base_version ++ "_" ++ toString vcs.revno ++ "_" ++ vcs.revid)
  else
    .ok base_version

/-- `python_version` from the source.  Steps, in source order: normalize
the branch name and extract its type tag; look the tag up in
`BRANCH_TYPES`; for versioned types extract the `-`-separated fragment
after the tag (`brnorm.split("-")[1]`, whose absence is the missing
version error) and require it to pass the `re.match(VERSION_RE, ...)`
prefix check; match the base version against the type's
`allowed_version_re`, requiring (for versioned types) the captured group
to equal the branch fragment; finally validate the mode and build the
version (`build_version`). -/
def python_version (base_version : String) (vcs : VcsInfo) (mode : String) :
    Except VersionError String :=
  match BRANCH_TYPES (get_branch_type (normalize_branch_name vcs.branch)) with
  | none =>
    .error (.malformedBranchName (get_branch_type (normalize_branch_name vcs.branch)))
  | some btype =>
    if btype.versioned then
      match (pySplitStr '-' (normalize_branch_name vcs.branch))[1]? with
      | none => .error (.missingBranchVersion vcs.branch)
      | some bverstr =>
        if !hasVersionPrefix bverstr.data then
          .error (.malformedBranchVersion bverstr vcs.branch)
        else
          match matchAllowed btype.allowed_version_re base_version with
          | none => .error (.baseVersionUnsuitable base_version vcs.branch)
          | some cap =>
            if cap ≠ some bverstr then
              .error (.baseVersionUnsuitable base_version vcs.branch)
            else
              build_version btype (get_branch_type (normalize_branch_name vcs.branch))
                base_version vcs mode
    else
      match matchAllowed btype.allowed_version_re base_version with
      | none => .error (.baseVersionUnsuitable base_version vcs.branch)
      | some _ =>
        build_version btype (get_branch_type (normalize_branch_name vcs.branch))
          base_version vcs mode

/-! ## Commit-identifier derivation (`get_commit_id`) -/

/-- A git commit as `get_commit_id` sees it: its own hex SHA and the hex
SHAs of its parents. -/
structure Commit where
  hexsha : String
  parents : List String
deriving DecidableEq

/-- The single `RuntimeError` raise site of `get_commit_id`
(`"Commit %s has more than 2 parents!"`). -/
inductive CommitIdError where
  | tooManyParents (commit : String)
deriving DecidableEq

/-- `short_id`: the first seven characters of a hex SHA
(`commit.hexsha[0:7]`). -/
def short_id (hexsha : String) : String :=
  ⟨hexsha.data.take 7⟩

/-- `get_commit_id` from the source.  `current_branch` is the name of the
branch checked out (`current_branch.name` in the source). -/
def get_commit_id (commit : Commit) (current_branch : String) :
    Except CommitIdError String :=
  match commit.parents with
  | [_] => .ok (short_id commit.hexsha)
  | [pr1, pr2] =>
    if "debian-".data.isPrefixOf current_branch.data || current_branch = "debian" then
      .ok (short_id pr1 ++ "-" ++ short_id pr2)
    else
      .ok (short_id commit.hexsha)
  | _ => .error (.tooManyParents commit.hexsha)

/-! ## The Debian package-version mapper -/

/-- `debian_version_from_python_version`:
`pyver.replace("_", "~").replace("rc", "~rc") + "-1"`. -/
def debian_version_from_python_version (pyver : String) : String :=
  String.mk (pyReplaceRc ['~', 'r', 'c']
    (pyReplaceChar '_' ['~'] pyver.data)) ++ "-1"

/-- `debian_version` from the source: generate the Python version and map
it. -/
def debian_version (base_version : String) (vcs : VcsInfo) (mode : String) :
    Except VersionError String :=
  (python_version base_version vcs mode).map debian_version_from_python_version

/-! ## Spec-modelled comparison algorithms

The repository's doctests compare generated versions with two external
algorithms that are not part of the repository: the setuptools /
PEP 386 `parse_version` ordering (the docstring of `python_version`
points to the setuptools section of PEP 386, which documents exactly the
algorithm below), and the dpkg version comparison referenced by the
docstring of `debian_version_from_python_version` (Debian Policy §5.6.12).
Both are modelled here from the spec. -/

/-- Modelled from the spec: a lowercase ASCII letter (`[a-z]` of the
setuptools component pattern, applied after `s.lower()`). -/
def isLowerAlpha (c : Char) : Bool :=
  'a' ≤ c && c ≤ 'z'

/-- Modelled from the spec: the character class of the component pattern
alternative that can consume `c` — `0` for `\d+`, `1` for `[a-z]+`, `2`
for `\.`, `3` for `-`, `4` for a non-matching gap character. -/
def vpClass (c : Char) : Nat :=
  if c.isDigit then 0
  else if isLowerAlpha c then 1
  else if c = '.' then 2
  else if c = '-' then 3
  else 4

/-- Whether class `k` forms maximal runs (digit runs, letter runs and
gap runs do; dots and dashes are single-character components). -/
def vpRunClass (k : Nat) : Bool :=
  k = 0 || k = 1 || k = 4

/-- Scanner for `vpSplit`: `run` is the current component, reversed. -/
def vpSplitGo (k : Nat) (run : List Char) : List Char → List (List Char)
  | [] => [run.reverse]
  | c :: cs =>
    if vpClass c = k ∧ vpRunClass k then vpSplitGo k (c :: run) cs
    else run.reverse :: vpSplitGo (vpClass c) [c] cs

/-- Modelled from the spec: `component_re.split(s)` without the empty
gaps — the sequence of components of `s`: maximal digit runs, maximal
lowercase-letter runs, single dots, single dashes, and maximal runs of
other characters. -/
def vpSplit : List Char → List (List Char)
  | [] => []
  | c :: cs => vpSplitGo (vpClass c) [c] cs

/-- Modelled from the spec: the setuptools replacement table
`{'pre':'c', 'preview':'c', '-':'final-', 'rc':'c', 'dev':'@'}`. -/
def vpMapPiece (p : List Char) : List Char :=
  if p = "pre".data then "c".data
  else if p = "preview".data then "c".data
  else if p = "-".data then "final-".data
  else if p = "rc".data then "c".data
  else if p = "dev".data then "@".data
  else p

/-- Modelled from the spec: `part.zfill(8)` for the numeric parts. -/
def zfill8 (p : List Char) : List Char :=
  List.replicate (8 - p.length) '0' ++ p

/-- Modelled from the spec: the per-part step of
`_parse_version_parts` — skip empty parts and dots, zero-fill numeric
parts, star-prefix the rest. -/
def vpYield (p : List Char) : Option (List Char) :=
  if p = [] || p = ['.'] then none
  else if (match p with | c :: _ => c.isDigit | [] => false) then some (zfill8 p)
  else some ('*' :: p)

/-- Modelled from the spec: `_parse_version_parts(s)` — the mapped,
filtered components followed by the closing `'*final'`. -/
def vpParts (s : List Char) : List (List Char) :=
  ((vpSplit s).map vpMapPiece).filterMap vpYield ++ ["*final".data]

/-- Python string `<` on character lists: lexicographic by code point. -/
def listLtChar : List Char → List Char → Bool
  | [], [] => false
  | [], _ :: _ => true
  | _ :: _, [] => false
  | a :: as, b :: bs => if a < b then true else if a = b then listLtChar as bs else false

/-- Python tuple `<` on tuples of strings: lexicographic, a strict prefix
being smaller. -/
def listLtParts : List (List Char) → List (List Char) → Bool
  | [], [] => false
  | [], _ :: _ => true
  | _ :: _, [] => false
  | a :: as, b :: bs =>
    if listLtChar a b then true else if a = b then listLtParts as bs else false

/-- Modelled from the spec: `while stack and stack.head = target: pop` on
a stack kept head-first. -/
def popWhileEq (target : List Char) : List (List Char) → List (List Char)
  | [] => []
  | p :: ps => if p = target then popWhileEq target ps else p :: ps

/-- Modelled from the spec: the accumulation loop of `parse_version` —
before appending a `'*'` part that sorts before `'*final'`, drop trailing
`'*final-'` parts, and before appending any `'*'` part, drop trailing
zero parts.  `acc` holds the parts accumulated so far, most recent
first. -/
def vpCollapse (acc : List (List Char)) : List (List Char) → List (List Char)
  | [] => acc.reverse
  | p :: ps =>
    if p.head? = some '*' then
      let acc1 := if listLtChar p "*final".data then popWhileEq "*final-".data acc else acc
      let acc2 := popWhileEq "00000000".data acc1
      vpCollapse (p :: acc2) ps
    else
      vpCollapse (p :: acc) ps

/-- Modelled from the spec: setuptools `parse_version` — the comparison
key of a version string under the PEP 386 setuptools ordering. -/
def parse_version (s : String) : List (List Char) :=
  vpCollapse [] (vpParts (s.data.map Char.toLower))

/-- Modelled from the spec: the strict setuptools ordering
`V(a) < V(b)` used by the doctests of `python_version`. -/
def vLt (a b : String) : Bool :=
  listLtParts (parse_version a) (parse_version b)

/-! ### The dpkg comparison (Debian Policy §5.6.12) -/

/-- Modelled from the spec: dpkg's `order()` — digits count 0, letters
their code point, `'~'` sorts below everything (including the end of a
part), all other characters above all letters. -/
def debOrder (c : Char) : Int :=
  if c.isDigit then 0
  else if c.isAlpha then (c.toNat : Int)
  else if c = '~' then -1
  else (c.toNat : Int) + 256

/-- Modelled from the spec: `order(*p)` with end-of-string counting 0,
as in dpkg's non-digit loop. -/
def debHeadOrder : List Char → Int
  | [] => 0
  | c :: _ => if c.isDigit then 0 else debOrder c

/-- Modelled from the spec: whether dpkg's non-digit loop continues
(`*p && !isdigit(*p)` on either side). -/
def debNdCond : List Char → Bool
  | [] => false
  | c :: _ => !c.isDigit

/-- First difference of two equal-length digit runs (dpkg's
`first_diff`). -/
def firstDiff : List Char → List Char → Int
  | a :: as, b :: bs =>
    if a = b then firstDiff as bs else (a.toNat : Int) - (b.toNat : Int)
  | _, _ => 0

/-- Modelled from the spec: dpkg's `verrevcmp`, fuelled.  Each recursive
step consumes at least one character from the two strings combined, so
`a.length + b.length + 1` units of fuel always suffice (the fuel is a
recursion bound, not part of the algorithm). -/
def verrevcmpF : Nat → List Char → List Char → Int
  | 0, _, _ => 0
  | fuel + 1, a, b =>
    if a = [] && b = [] then 0
    else if debNdCond a || debNdCond b then
      let va := debHeadOrder a
      let vb := debHeadOrder b
      if va ≠ vb then va - vb
      else verrevcmpF fuel a.tail b.tail
    else
      let a2 := a.dropWhile (· = '0')
      let b2 := b.dropWhile (· = '0')
      let da := a2.takeWhile Char.isDigit
      let db := b2.takeWhile Char.isDigit
      if da.length > db.length then 1
      else if da.length < db.length then -1
      else
        let d := firstDiff da db
        if d ≠ 0 then d
        else verrevcmpF fuel (a2.drop da.length) (b2.drop db.length)

/-- Modelled from the spec: dpkg's `verrevcmp`. -/
def verrevcmp (a b : List Char) : Int :=
  verrevcmpF (a.length + b.length + 1) a b

/-- Modelled from the spec: split a Debian version string at its *last*
hyphen into upstream version and Debian revision; a version with no
hyphen has revision `"0"`.  (Our strings never carry an epoch.) -/
def splitLastDash (s : List Char) : List Char × List Char :=
  if s.contains '-' then
    let r := s.reverse
    (((r.dropWhile (· ≠ '-')).tail).reverse, (r.takeWhile (· ≠ '-')).reverse)
  else (s, ['0'])

/-- Modelled from the spec: the dpkg version comparison — upstream
version first, Debian revision as tie-break. -/
def debCompare (a b : List Char) : Int :=
  let ua := splitLastDash a
  let ub := splitLastDash b
  let c := verrevcmp ua.1 ub.1
  if c ≠ 0 then c else verrevcmp ua.2 ub.2

/-- Modelled from the spec: the strict dpkg ordering on version
strings. -/
def debLt (a b : String) : Bool :=
  debCompare a.data b.data < 0

/-! ## Helper lemmas about the generator -/

theorem build_version_ok_cases (btype : Branch_type) (btypestr base : String)
    (vcs : VcsInfo) (mode v : String)
    (h : build_version btype btypestr base vcs mode = .ok v) :
    (mode = "release" ∧ v = base) ∨
      (mode = "snapshot" ∧
        v = base ++ "_" ++ toString vcs.revno ++ "_" ++ vcs.revid) := by
  unfold build_version at h
  split at h
  · exact absurd h (by simp)
  · split at h
    · exact absurd h (by simp)
    · rename_i hmode hflags
      split at h
      · rename_i hsnap
        right
        refine ⟨by simpa using hsnap, ?_⟩
        simpa using h.symm
      · rename_i hsnap
        left
        have hm : mode ≠ "snapshot" := by simpa using hsnap
        have : ¬(mode ≠ "snapshot" ∧ mode ≠ "release") := by
          intro ⟨h1, h2⟩
          simp [h1, h2] at hmode
        refine ⟨by tauto, ?_⟩
        simpa using h.symm

/-- Every successful run of `python_version` goes through a successful
`matchAllowed` on the base version and ends in `build_version`. -/
theorem python_version_ok_match (base : String) (vcs : VcsInfo) (mode v : String)
    (h : python_version base vcs mode = .ok v) :
    ∃ btype cap,
      BRANCH_TYPES (get_branch_type (normalize_branch_name vcs.branch)) = some btype ∧
      matchAllowed btype.allowed_version_re base = some cap ∧
      build_version btype (get_branch_type (normalize_branch_name vcs.branch))
        base vcs mode = .ok v := by
  unfold python_version at h
  split at h
  · exact absurd h (by simp)
  · rename_i btype hbt
    split at h
    · split at h
      · exact absurd h (by simp)
      · split at h
        · exact absurd h (by simp)
        · split at h
          · exact absurd h (by simp)
          · rename_i cap hcap
            split at h
            · exact absurd h (by simp)
            · exact ⟨btype, cap, hbt, hcap, h⟩
    · split at h
      · exact absurd h (by simp)
      · rename_i cap hcap
        exact ⟨btype, cap, hbt, hcap, h⟩

/-! ## Claim C1 -/

/-- C1: for every input accepted by all validation steps, `generate`
(`python_version`) with mode `release` returns the base version
unchanged, and with mode `snapshot` returns
`baseVersion ++ "_" ++ revisionCount ++ "_" ++ commitId`, embedding the
supplied revision count and commit id unmodified. -/
theorem c1_generate_output_shape (base : String) (vcs : VcsInfo) (mode v : String)
    (h : python_version base vcs mode = .ok v) :
    (mode = "release" ∧ v = base) ∨
      (mode = "snapshot" ∧
        v = base ++ "_" ++ toString vcs.revno ++ "_" ++ vcs.revid) := by
  obtain ⟨btype, cap, -, -, hbuild⟩ := python_version_ok_match base vcs mode v h
  exact build_version_ok_cases btype _ base vcs mode v hbuild

/-- Witness for C1 at a concrete accepted input: branch `release-0.14`,
base version `0.14rc2`, snapshot mode, revision count 249, commit id
`a1b2c3d`. -/
theorem c1_generate_output_shape_witness :
    ("snapshot" = "release" ∧ "0.14rc2_249_a1b2c3d" = "0.14rc2") ∨
      ("snapshot" = "snapshot" ∧
        "0.14rc2_249_a1b2c3d" =
          "0.14rc2" ++ "_" ++ toString (249 : Nat) ++ "_" ++ "a1b2c3d") :=
  c1_generate_output_shape "0.14rc2" ⟨"release-0.14", "a1b2c3d", 249, "/repo"⟩
    "snapshot" "0.14rc2_249_a1b2c3d" (by rfl)

/-! ## Claim C2 -/

/-- C2: under the PEP 386 / setuptools string-version comparison, the
representative ordering chain holds:
`V("0.14rc2_249") < V("0.14rc2") < V("0.14") < V("0.14next_1")
 < V("0.14next") < V("0.14.1_1") < V("0.14.1")`. -/
theorem c2_ordering_chain :
    vLt "0.14rc2_249" "0.14rc2" = true ∧
    vLt "0.14rc2" "0.14" = true ∧
    vLt "0.14" "0.14next_1" = true ∧
    vLt "0.14next_1" "0.14next" = true ∧
    vLt "0.14next" "0.14.1_1" = true ∧
    vLt "0.14.1_1" "0.14.1" = true := by
  refine ⟨?_, ?_, ?_, ?_, ?_, ?_⟩ <;> decide

/-! ## Claim C4 -/

/-- C4: commit-identifier derivation.  A one-parent commit gets its own
short identifier; a two-parent commit gets the two parents' short
identifiers joined by `"-"` exactly when the checked-out branch name
starts with `"debian-"` or equals `"debian"`, and its own short
identifier otherwise; any commit with more than two parents fails with
the unsupported-topology error, on every branch. -/
theorem c4_commit_id_derivation :
    (∀ (c : Commit) (br p : String), c.parents = [p] →
      get_commit_id c br = .ok (short_id c.hexsha)) ∧
    (∀ (c : Commit) (br p1 p2 : String), c.parents = [p1, p2] →
      ("debian-".data.isPrefixOf br.data || br = "debian") = true →
      get_commit_id c br = .ok (short_id p1 ++ "-" ++ short_id p2)) ∧
    (∀ (c : Commit) (br p1 p2 : String), c.parents = [p1, p2] →
      ("debian-".data.isPrefixOf br.data || br = "debian") = false →
      get_commit_id c br = .ok (short_id c.hexsha)) ∧
    (∀ (c : Commit) (br : String), 2 < c.parents.length →
      get_commit_id c br = .error (.tooManyParents c.hexsha)) := by
  refine ⟨?_, ?_, ?_, ?_⟩
  · intro c br p hp
    simp [get_commit_id, hp]
  · intro c br p1 p2 hp hdeb
    simp only [get_commit_id, hp]
    simp [hdeb]
  · intro c br p1 p2 hp hdeb
    simp only [get_commit_id, hp]
    simp [hdeb]
  · intro c br hlen
    obtain ⟨sha, ps⟩ := c
    simp only at hlen
    cases ps with
    | nil => simp at hlen
    | cons p1 t1 =>
      cases t1 with
      | nil => simp at hlen
      | cons p2 t2 =>
        cases t2 with
        | nil => simp at hlen
        | cons p3 t3 => rfl

/-- Witness for C4 at concrete commits: a one-parent commit, a merge on
`debian-master`, the same merge on `master`, and a three-parent commit. -/
theorem c4_commit_id_derivation_witness :
    get_commit_id ⟨"abcdef1234", ["1111111aa"]⟩ "master" = .ok "abcdef1" ∧
    get_commit_id ⟨"abcdef1234", ["1111111aa", "2222222bb"]⟩ "debian-master" =
      .ok "1111111-2222222" ∧
    get_commit_id ⟨"abcdef1234", ["1111111aa", "2222222bb"]⟩ "master" =
      .ok "abcdef1" ∧
    get_commit_id ⟨"abcdef1234", ["a1", "a2", "a3"]⟩ "release-0.14" =
      .error (.tooManyParents "abcdef1234") := by
  refine ⟨?_, ?_, ?_, ?_⟩
  · exact c4_commit_id_derivation.1 ⟨"abcdef1234", ["1111111aa"]⟩ "master"
      "1111111aa" rfl
  · exact c4_commit_id_derivation.2.1 ⟨"abcdef1234", ["1111111aa", "2222222bb"]⟩
      "debian-master" "1111111aa" "2222222bb" rfl (by decide)
  · exact c4_commit_id_derivation.2.2.1 ⟨"abcdef1234", ["1111111aa", "2222222bb"]⟩
      "master" "1111111aa" "2222222bb" rfl (by decide)
  · exact c4_commit_id_derivation.2.2.2 ⟨"abcdef1234", ["a1", "a2", "a3"]⟩
      "release-0.14" (by decide)

/-! ## Claim C9 -/

/-- C9: a commit with zero parents (a root commit) fails with the same
fatal condition as a commit with more than two parents (the single
`RuntimeError` raise site of `get_commit_id`), so no version can be
computed at a root commit. -/
theorem c9_root_commit_same_error (c : Commit) (br : String)
    (h : c.parents = []) :
    get_commit_id c br = .error (.tooManyParents c.hexsha) := by
  unfold get_commit_id
  rw [h]

/-- Witness for C9 at a concrete root commit. -/
theorem c9_root_commit_same_error_witness :
    get_commit_id ⟨"abcdef1234", []⟩ "master" =
      .error (.tooManyParents "abcdef1234") :=
  c9_root_commit_same_error ⟨"abcdef1234", []⟩ "master" rfl

/-! ## Claim C6 -/

/-- C6: branch `"master"` with base version `"0.14rc2"` fails with the
base-version pattern error (`IncompatibleBaseVersion`, the single
`"Base version unsuitable"` condition) for *every* mode string —
the base-version check decides before any mode validation, for any
revision count and commit id. -/
theorem c6_master_wrong_base_any_mode (mode revid toplevel : String) (revno : Nat) :
    python_version "0.14rc2" ⟨"master", revid, revno, toplevel⟩ mode =
      .error (.baseVersionUnsuitable "0.14rc2" "master") := by
  rfl

/-! ## Claim C7 -/

/-- `pySplit` never returns an empty list of fragments. -/
theorem pySplit_ne_nil (sep : Char) (s : List Char) : pySplit sep s ≠ [] := by
  cases s with
  | nil => simp [pySplit]
  | cons c cs =>
    unfold pySplit
    split
    · simp
    · split <;> simp

/-- Splitting `a ++ sep :: b` where `a` is `sep`-free starts with the
fragment `a`. -/
theorem pySplit_append (sep : Char) (a b : List Char) (h : a.contains sep = false) :
    pySplit sep (a ++ sep :: b) = a :: pySplit sep b := by
  induction a with
  | nil => simp [pySplit]
  | cons c cs ih =>
    have hc : ¬(c = sep) := by
      simp only [List.contains_cons] at h
      intro hcs
      simp [hcs] at h
    have hcs : cs.contains sep = false := by
      simp only [List.contains_cons] at h
      exact (Bool.or_eq_false_iff.mp h).2
    simp only [List.cons_append, pySplit, if_neg hc, List.append_eq, ih hcs]

/-- C7: branch classification is total and deterministic; the raw name
`"debian"` classifies with tag `"master"` (the packaging form of master,
with its packaging prefix then stripped); a name prefixed by `"debian-"`
loses exactly one occurrence of the prefix (`"debian-debian-x"`
normalizes to `"debian-x"`); and the tag is the part of the normalized
name before the first `"-"` when one is present, otherwise the whole
name. -/
theorem c7_branch_classification :
    get_branch_type (normalize_branch_name "debian") = "master" ∧
    normalize_branch_name "debian-debian-x" = "debian-x" ∧
    (∀ a b : String, a.data.contains '-' = false →
      get_branch_type (a ++ "-" ++ b) = a) ∧
    (∀ a : String, a.data.contains '-' = false → get_branch_type a = a) := by
  refine ⟨by decide, by decide, ?_, ?_⟩
  · intro a b h
    have hdata : (a ++ "-" ++ b).data = a.data ++ '-' :: b.data := by
      simp [String.data_append]
    have hcontains : (a ++ "-" ++ b).data.contains '-' = true := by
      rw [hdata]
      simp [List.contains_eq_any_beq]
    unfold get_branch_type
    rw [hcontains, if_pos rfl]
    unfold pySplitStr
    rw [hdata, pySplit_append '-' a.data b.data h]
    simp
  · intro a h
    unfold get_branch_type
    rw [h]
    simp

/-- Witness for C7: the general tag-extraction clauses applied at
`"release" ++ "-" ++ "0.14"` and at `"master"`. -/
theorem c7_branch_classification_witness :
    get_branch_type ("release" ++ "-" ++ "0.14") = "release" ∧
    get_branch_type "master" = "master" :=
  ⟨c7_branch_classification.2.2.1 "release" "0.14" (by decide),
   c7_branch_classification.2.2.2 "master" (by decide)⟩

/-! ## Claim C5 -/

/-- Counterexample to C5: for branch `"release-0.14junk"` (fragment
`"0.14junk"`, which does not fully match the semver shape), `generate`
does *not* fail with `MalformedBranchVersion`: the well-formedness check
is an unanchored `re.match`, which accepts any fragment *beginning* with
the semver shape, so the run proceeds and fails later with the
base-version-unsuitable condition. -/
theorem c5_counterexample :
    python_version "0.14rc2" ⟨"release-0.14junk", "a1b2c3d", 1, "/repo"⟩ "release" =
      .error (.baseVersionUnsuitable "0.14rc2" "release-0.14junk") ∧
    (∀ bv br : String,
      python_version "0.14rc2" ⟨"release-0.14junk", "a1b2c3d", 1, "/repo"⟩ "release" ≠
        .error (.malformedBranchVersion bv br)) := by
  refine ⟨by rfl, ?_⟩
  intro bv br h
  rw [show python_version "0.14rc2" ⟨"release-0.14junk", "a1b2c3d", 1, "/repo"⟩
        "release" =
      .error (.baseVersionUnsuitable "0.14rc2" "release-0.14junk") from rfl] at h
  simp at h

/-- C5 as amended: for a branch of versioned type, a missing
separator-delimited fragment after the tag fails with
`MissingBranchVersion`; a fragment that does not *begin* with the basic
semver shape (the structural check is an unanchored prefix match) fails
with `MalformedBranchVersion`.  Fragments such as `"0.14junk"` pass the
structural check and fail later with the base-version-unsuitable
condition. -/
theorem c5_versioned_branch_checks (base : String) (vcs : VcsInfo) (mode : String)
    (btype : Branch_type)
    (hbt : BRANCH_TYPES (get_branch_type (normalize_branch_name vcs.branch)) =
      some btype)
    (hv : btype.versioned = true) :
    ((pySplitStr '-' (normalize_branch_name vcs.branch))[1]? = none →
      python_version base vcs mode = .error (.missingBranchVersion vcs.branch)) ∧
    (∀ bv : String,
      (pySplitStr '-' (normalize_branch_name vcs.branch))[1]? = some bv →
      hasVersionPrefix bv.data = false →
      python_version base vcs mode =
        .error (.malformedBranchVersion bv vcs.branch)) := by
  constructor
  · intro hnone
    unfold python_version
    rw [hbt]
    simp [hv, hnone]
  · intro bv hsome hbad
    unfold python_version
    rw [hbt]
    simp [hv, hsome, hbad]

/-- Witness for C5's amended theorem: branch `"release"` (no fragment)
fails with the missing-version error, and branch `"release-junk"`
(fragment not beginning with the semver shape) fails with the
malformed-version error. -/
theorem c5_versioned_branch_checks_witness :
    python_version "0.14rc2" ⟨"release", "a1b2c3d", 1, "/repo"⟩ "release" =
      .error (.missingBranchVersion "release") ∧
    python_version "0.14rc2" ⟨"release-junk", "a1b2c3d", 1, "/repo"⟩ "release" =
      .error (.malformedBranchVersion "junk" "release-junk") :=
  ⟨(c5_versioned_branch_checks "0.14rc2" ⟨"release", "a1b2c3d", 1, "/repo"⟩
      "release" ⟨true, true, true, .releaseRe⟩ rfl rfl).1 (by decide),
   (c5_versioned_branch_checks "0.14rc2" ⟨"release-junk", "a1b2c3d", 1, "/repo"⟩
      "release" ⟨true, true, true, .releaseRe⟩ rfl rfl).2 "junk" (by decide)
      (by decide)⟩

/-! ## Claim C8 -/

/-- Counterexample to C8: `IncompatibleBaseVersion` (base version fails
the descriptor pattern) and `BaseVersionBranchMismatch` (captured
sub-group differs from the branch fragment) are *not* distinguishable
conditions — the source reports both causes through the single
`"Base version '%s' unsuitable for branch name '%s'"` raise site.  Here
`"junk"` fails the pattern outright while `"0.15rc1"` matches it with
captured group `"0.15" ≠ "0.14"`, yet both runs produce the same error
constructor. -/
theorem c8_counterexample :
    matchAllowed .releaseRe "junk" = none ∧
    python_version "junk" ⟨"release-0.14", "a1b2c3d", 1, "/repo"⟩ "release" =
      .error (.baseVersionUnsuitable "junk" "release-0.14") ∧
    matchAllowed .releaseRe "0.15rc1" = some (some "0.15") ∧
    (some "0.15" : Option String) ≠ some "0.14" ∧
    python_version "0.15rc1" ⟨"release-0.14", "a1b2c3d", 1, "/repo"⟩ "release" =
      .error (.baseVersionUnsuitable "0.15rc1" "release-0.14") := by
  refine ⟨by decide, by rfl, by decide, by decide, by rfl⟩

/-- C8 as amended: failures of the generator are reported through six
distinct conditions (plus the separate unsupported-topology condition of
commit-identifier derivation); the spec's `IncompatibleBaseVersion` and
`BaseVersionBranchMismatch` are a *single* condition: for a versioned
branch, both a base version failing the pattern and one whose captured
sub-group differs from the branch fragment produce the identical
`baseVersionUnsuitable` error. -/
theorem c8_base_version_single_condition (base : String) (vcs : VcsInfo)
    (mode : String) (btype : Branch_type) (bv : String)
    (hbt : BRANCH_TYPES (get_branch_type (normalize_branch_name vcs.branch)) =
      some btype)
    (hv : btype.versioned = true)
    (hsome : (pySplitStr '-' (normalize_branch_name vcs.branch))[1]? = some bv)
    (hok : hasVersionPrefix bv.data = true) :
    (matchAllowed btype.allowed_version_re base = none →
      python_version base vcs mode =
        .error (.baseVersionUnsuitable base vcs.branch)) ∧
    (∀ cap, matchAllowed btype.allowed_version_re base = some cap →
      cap ≠ some bv →
      python_version base vcs mode =
        .error (.baseVersionUnsuitable base vcs.branch)) := by
  constructor
  · intro hm
    unfold python_version
    rw [hbt]
    simp [hv, hsome, hok, hm]
  · intro cap hm hne
    unfold python_version
    rw [hbt]
    simp [hv, hsome, hok, hm, hne]

/-- Witness for C8's amended theorem: both causes at concrete inputs on
branch `"release-0.14"`. -/
theorem c8_base_version_single_condition_witness :
    python_version "junk" ⟨"release-0.14", "a1b2c3d", 1, "/repo"⟩ "snapshot" =
      .error (.baseVersionUnsuitable "junk" "release-0.14") ∧
    python_version "0.15rc1" ⟨"release-0.14", "a1b2c3d", 1, "/repo"⟩ "snapshot" =
      .error (.baseVersionUnsuitable "0.15rc1" "release-0.14") :=
  ⟨(c8_base_version_single_condition "junk"
      ⟨"release-0.14", "a1b2c3d", 1, "/repo"⟩ "snapshot"
      ⟨true, true, true, .releaseRe⟩ "0.14" rfl rfl rfl (by decide)).1 (by decide),
   (c8_base_version_single_condition "0.15rc1"
      ⟨"release-0.14", "a1b2c3d", 1, "/repo"⟩ "snapshot"
      ⟨true, true, true, .releaseRe⟩ "0.14" rfl rfl rfl (by decide)).2
      (some "0.15") (by decide) (by decide)⟩

/-! ## Claim C10 -/

/-- The error conditions of the generator, without the message data
interpolated at each raise site. -/
inductive ErrCond where
  | malformedBranchName
  | missingBranchVersion
  | malformedBranchVersion
  | baseVersionUnsuitable
  | invalidMode
  | modeNotAllowed
deriving DecidableEq

/-- The condition of an error, forgetting the interpolated message
data. -/
def errCond : VersionError → ErrCond
  | .malformedBranchName _ => .malformedBranchName
  | .missingBranchVersion _ => .missingBranchVersion
  | .malformedBranchVersion _ _ => .malformedBranchVersion
  | .baseVersionUnsuitable _ _ => .baseVersionUnsuitable
  | .invalidMode _ => .invalidMode
  | .modeNotAllowed _ _ => .modeNotAllowed

/-- A generator result up to error-message data: success values are kept
exactly, errors are reduced to their condition. -/
def resultCond : Except VersionError String → Except ErrCond String
  | .ok v => .ok v
  | .error e => .error (errCond e)

/-- Counterexample to C10: the branches `"release-0.14-anything"` and
`"release-0.14"` agree on the leading tag and on the second
`"-"`-separated segment of the normalized name, yet with identical base
version, repository state and mode the two runs do *not* yield the
identical result: the error embeds the raw branch name in its message
data. -/
theorem c10_counterexample :
    get_branch_type (normalize_branch_name "release-0.14-anything") =
      get_branch_type (normalize_branch_name "release-0.14") ∧
    (pySplitStr '-' (normalize_branch_name "release-0.14-anything"))[1]? =
      (pySplitStr '-' (normalize_branch_name "release-0.14"))[1]? ∧
    python_version "junk" ⟨"release-0.14-anything", "a1b2c3d", 1, "/repo"⟩
        "release" ≠
      python_version "junk" ⟨"release-0.14", "a1b2c3d", 1, "/repo"⟩ "release" := by
  refine ⟨by decide, by decide, ?_⟩
  intro h
  rw [show python_version "junk" ⟨"release-0.14-anything", "a1b2c3d", 1, "/repo"⟩
        "release" =
      .error (.baseVersionUnsuitable "junk" "release-0.14-anything") from rfl,
    show python_version "junk" ⟨"release-0.14", "a1b2c3d", 1, "/repo"⟩ "release" =
      .error (.baseVersionUnsuitable "junk" "release-0.14") from rfl] at h
  simp at h

/-- C10 as amended: the generator reads the branch name only through the
leading tag of the normalized name and, for versioned branch types, its
second `"-"`-separated segment.  Two branch names agreeing on those,
with identical base version, revision count, commit id and mode, yield
the identical success value and the identical error *condition*; only
the raw branch name interpolated into error-message data can differ. -/
theorem c10_branch_name_dependence (b1 b2 rid tl1 tl2 base mode : String)
    (rno : Nat)
    (htag : get_branch_type (normalize_branch_name b1) =
      get_branch_type (normalize_branch_name b2))
    (hseg : ∀ bt : Branch_type,
      BRANCH_TYPES (get_branch_type (normalize_branch_name b1)) = some bt →
      bt.versioned = true →
      (pySplitStr '-' (normalize_branch_name b1))[1]? =
        (pySplitStr '-' (normalize_branch_name b2))[1]?) :
    resultCond (python_version base ⟨b1, rid, rno, tl1⟩ mode) =
      resultCond (python_version base ⟨b2, rid, rno, tl2⟩ mode) := by
  unfold python_version
  simp only
  rw [htag] at hseg ⊢
  cases hbt : BRANCH_TYPES (get_branch_type (normalize_branch_name b2)) with
  | none => rfl
  | some bt =>
    cases hv : bt.versioned with
    | false =>
      simp only [hv, Bool.false_eq_true, if_false]
      cases hm : matchAllowed bt.allowed_version_re base with
      | none => rfl
      | some cap => rfl
    | true =>
      have hseg2 := hseg bt hbt hv
      simp only [hv, if_true]
      rw [hseg2]
      cases hs : (pySplitStr '-' (normalize_branch_name b2))[1]? with
      | none => rfl
      | some bv =>
        simp only
        cases hok : hasVersionPrefix bv.data with
        | false => rfl
        | true =>
          simp only [hok, Bool.not_true, Bool.false_eq_true, if_false]
          cases hm : matchAllowed bt.allowed_version_re base with
          | none => rfl
          | some cap =>
            by_cases hc : cap = some bv
            · simp only [hc, ne_eq, not_true_eq_false, if_false]
              rfl
            · simp only [ne_eq, hc, not_false_eq_true, if_true]
              rfl

/-- Witness for C10's amended theorem: `"release-0.14-anything"` and
`"release-0.14"` produce the same condition for a rejected base version
(and the same success value when accepted — here shown at the rejected
input of the counterexample). -/
theorem c10_branch_name_dependence_witness :
    resultCond (python_version "junk"
        ⟨"release-0.14-anything", "a1b2c3d", 1, "/repo"⟩ "release") =
      resultCond (python_version "junk"
        ⟨"release-0.14", "a1b2c3d", 1, "/repo"⟩ "release") :=
  c10_branch_name_dependence "release-0.14-anything" "release-0.14" "a1b2c3d"
    "/repo" "/repo" "junk" "release" 1 (by decide)
    (fun _ _ _ => by decide)

/-! ## Claim C3: injectivity machinery

`debian_version_from_python_version` is the composition of two Python
`replace` passes.  For reasoning we show the composition equal to a
single left-to-right scan (`mapDirect`), then invert that scan on
tilde-free inputs. -/

/-- One left-to-right scan performing `replace("_", "~")` followed by
`replace("rc", "~rc")`: each occurrence of `rc` becomes `~rc`, each
other `_` becomes `~`. -/
def mapDirect : List Char → List Char
  | [] => []
  | [c] => if c = '_' then ['~'] else [c]
  | c :: c2 :: t =>
    if c = 'r' ∧ c2 = 'c' then '~' :: 'r' :: 'c' :: mapDirect t
    else if c = '_' then '~' :: mapDirect (c2 :: t)
    else c :: mapDirect (c2 :: t)

/-- Inverse scan of `mapDirect`: `~rc` back to `rc`, any other `~` back
to `_`. -/
def unmapDirect : List Char → List Char
  | [] => []
  | [c] => [if c = '~' then '_' else c]
  | [c, c2] => (if c = '~' then '_' else c) :: [if c2 = '~' then '_' else c2]
  | c :: c2 :: c3 :: t =>
    if c = '~' ∧ c2 = 'r' ∧ c3 = 'c' then 'r' :: 'c' :: unmapDirect t
    else (if c = '~' then '_' else c) :: unmapDirect (c2 :: c3 :: t)

theorem pyReplaceChar_underscore (t : List Char) :
    pyReplaceChar '_' ['~'] ('_' :: t) = '~' :: pyReplaceChar '_' ['~'] t := by
  simp [pyReplaceChar]

theorem pyReplaceChar_other (c : Char) (t : List Char) (h : c ≠ '_') :
    pyReplaceChar '_' ['~'] (c :: t) = c :: pyReplaceChar '_' ['~'] t := by
  simp [pyReplaceChar, h]

theorem pyReplaceChar_head (a : Char) (u : List Char) :
    (pyReplaceChar '_' ['~'] (a :: u)).head? =
      some (if a = '_' then '~' else a) := by
  unfold pyReplaceChar
  split <;> simp_all

theorem pyReplaceRc_rc (new t : List Char) :
    pyReplaceRc new ('r' :: 'c' :: t) = new ++ pyReplaceRc new t := by
  simp [pyReplaceRc]

theorem pyReplaceRc_cons (new : List Char) (c : Char) (t : List Char)
    (h : ¬(c = 'r' ∧ t.head? = some 'c')) :
    pyReplaceRc new (c :: t) = c :: pyReplaceRc new t := by
  match t with
  | [] => rfl
  | y :: ys =>
    have hy : ¬(c = 'r' ∧ y = 'c') := by
      rintro ⟨h1, h2⟩
      exact h ⟨h1, by rw [h2]; rfl⟩
    simp [pyReplaceRc, hy]

theorem mapDirect_rc (t : List Char) :
    mapDirect ('r' :: 'c' :: t) = '~' :: 'r' :: 'c' :: mapDirect t := by
  simp [mapDirect]

theorem mapDirect_underscore (c2 : Char) (t : List Char) :
    mapDirect ('_' :: c2 :: t) = '~' :: mapDirect (c2 :: t) := by
  have h : ¬('_' = 'r' ∧ c2 = 'c') := by rintro ⟨h1, -⟩; exact absurd h1 (by decide)
  rw [mapDirect, if_neg h, if_pos rfl]

theorem mapDirect_other (c c2 : Char) (t : List Char)
    (h1 : ¬(c = 'r' ∧ c2 = 'c')) (h2 : c ≠ '_') :
    mapDirect (c :: c2 :: t) = c :: mapDirect (c2 :: t) := by
  rw [mapDirect, if_neg h1, if_neg h2]

theorem mapDirect_head (a : Char) (u : List Char) :
    (mapDirect (a :: u)).head? = some '~' ∨ (mapDirect (a :: u)).head? = some a := by
  cases u with
  | nil =>
    unfold mapDirect
    split
    · simp_all
    · simp_all
  | cons b v =>
    unfold mapDirect
    split
    · simp
    · split <;> simp_all

theorem unmapDirect_rc (t : List Char) :
    unmapDirect ('~' :: 'r' :: 'c' :: t) = 'r' :: 'c' :: unmapDirect t := by
  simp [unmapDirect]

theorem unmapDirect_tilde (t : List Char) (h : t.take 2 ≠ ['r', 'c']) :
    unmapDirect ('~' :: t) = '_' :: unmapDirect t := by
  match t with
  | [] => rfl
  | [y] => rfl
  | y :: y2 :: ys =>
    have hy : ¬('~' = '~' ∧ y = 'r' ∧ y2 = 'c') := by
      rintro ⟨-, h1, h2⟩
      exact h (by rw [h1, h2]; rfl)
    rw [unmapDirect, if_neg hy, if_pos rfl]

theorem unmapDirect_other (c : Char) (t : List Char) (h : c ≠ '~') :
    unmapDirect (c :: t) = c :: unmapDirect t := by
  match t with
  | [] => simp [unmapDirect, h]
  | [y] => simp [unmapDirect, h]
  | y :: y2 :: ys =>
    have hy : ¬(c = '~' ∧ y = 'r' ∧ y2 = 'c') := by rintro ⟨h1, -⟩; exact h h1
    rw [unmapDirect, if_neg hy, if_neg h]

theorem take_two_cons_cons (a b : Char) (l : List Char) :
    (a :: b :: l).take 2 = [a, b] := rfl

theorem mapDirect_take_two (l : List Char) :
    (mapDirect l).take 2 ≠ ['r', 'c'] := by
  match l with
  | [] => simp [mapDirect]
  | [c] =>
    unfold mapDirect
    intro h
    split at h <;> simp_all
  | c :: c2 :: t =>
    intro h
    by_cases hrc : c = 'r' ∧ c2 = 'c'
    · obtain ⟨h1, h2⟩ := hrc
      subst h1; subst h2
      rw [mapDirect_rc, take_two_cons_cons] at h
      simp at h
    · by_cases hund : c = '_'
      · subst hund
        rw [mapDirect_underscore] at h
        cases hM : mapDirect (c2 :: t) with
        | nil => rw [hM] at h; simp at h
        | cons y ys =>
          rw [hM, take_two_cons_cons] at h
          simp at h
      · rw [mapDirect_other c c2 t hrc hund] at h
        cases hM : mapDirect (c2 :: t) with
        | nil => rw [hM] at h; simp at h
        | cons y ys =>
          rw [hM, take_two_cons_cons] at h
          have hc : c = 'r' := (List.cons.inj h).1
          have hy : y = 'c' := (List.cons.inj (List.cons.inj h).2).1
          subst hc
          rcases mapDirect_head c2 t with hh | hh <;> rw [hM] at hh <;>
            simp only [List.head?_cons, Option.some.injEq] at hh
          · rw [hy] at hh; exact absurd hh (by decide)
          · exact hrc ⟨rfl, by rw [← hh]; exact hy⟩

/-- The two `replace` passes of the Debian mapper coincide with the
single scan `mapDirect`. -/
theorem replace_chain_eq_mapDirect (s : List Char) :
    pyReplaceRc ['~', 'r', 'c'] (pyReplaceChar '_' ['~'] s) = mapDirect s := by
  match s with
  | [] => rfl
  | [c] =>
    by_cases hc : c = '_'
    · subst hc; rfl
    · rw [pyReplaceChar_other c [] hc]
      simp [pyReplaceRc, mapDirect, hc]
  | c :: c2 :: t =>
    by_cases hrc : c = 'r' ∧ c2 = 'c'
    · obtain ⟨h1, h2⟩ := hrc
      subst h1; subst h2
      rw [pyReplaceChar_other 'r' _ (by decide), pyReplaceChar_other 'c' _ (by decide),
        pyReplaceRc_rc, mapDirect_rc, replace_chain_eq_mapDirect t]
      rfl
    · by_cases hund : c = '_'
      · subst hund
        rw [pyReplaceChar_underscore,
          pyReplaceRc_cons _ '~' _ (by rintro ⟨h1, -⟩; exact absurd h1 (by decide)),
          mapDirect_underscore, replace_chain_eq_mapDirect (c2 :: t)]
      · rw [pyReplaceChar_other c _ hund]
        have hY := pyReplaceChar_head c2 t
        rw [pyReplaceRc_cons _ c _ ?hcond, mapDirect_other c c2 t hrc hund,
          replace_chain_eq_mapDirect (c2 :: t)]
        case hcond =>
          rintro ⟨h1, h2⟩
          subst h1
          rw [hY] at h2
          simp only [Option.some.injEq] at h2
          split at h2
          · exact absurd h2 (by decide)
          · exact hrc ⟨rfl, h2⟩

/-- `unmapDirect` inverts `mapDirect` on tilde-free inputs. -/
theorem unmap_mapDirect (s : List Char) (h : '~' ∉ s) :
    unmapDirect (mapDirect s) = s := by
  match s with
  | [] => rfl
  | [c] =>
    have hc : c ≠ '~' := by intro e; exact h (by simp [e])
    by_cases hund : c = '_'
    · subst hund; rfl
    · simp [mapDirect, hund, unmapDirect, hc]
  | c :: c2 :: t =>
    have hc : c ≠ '~' := by intro e; exact h (by simp [e])
    have hrest : '~' ∉ c2 :: t := by intro e; exact h (List.mem_cons_of_mem _ e)
    have ht : '~' ∉ t := by intro e; exact hrest (List.mem_cons_of_mem _ e)
    by_cases hrc : c = 'r' ∧ c2 = 'c'
    · obtain ⟨h1, h2⟩ := hrc
      subst h1; subst h2
      rw [mapDirect_rc, unmapDirect_rc, unmap_mapDirect t ht]
    · by_cases hund : c = '_'
      · subst hund
        rw [mapDirect_underscore,
          unmapDirect_tilde _ (mapDirect_take_two (c2 :: t)),
          unmap_mapDirect (c2 :: t) hrest]
      · rw [mapDirect_other c c2 t hrc hund, unmapDirect_other c _ hc,
          unmap_mapDirect (c2 :: t) hrest]

/-- The Debian mapper is injective on tilde-free version strings. -/
theorem debian_mapper_injective_noTilde (s1 s2 : String)
    (h1 : '~' ∉ s1.data) (h2 : '~' ∉ s2.data)
    (heq : debian_version_from_python_version s1 =
      debian_version_from_python_version s2) : s1 = s2 := by
  unfold debian_version_from_python_version at heq
  have hdata := congrArg String.data heq
  simp only [String.data_append] at hdata
  have hmk : ∀ l : List Char, (String.mk l).data = l := fun _ => rfl
  rw [hmk, hmk] at hdata
  rw [replace_chain_eq_mapDirect, replace_chain_eq_mapDirect] at hdata
  have hcancel := List.append_cancel_right hdata
  have hdd := congrArg unmapDirect hcancel
  rw [unmap_mapDirect s1.data h1, unmap_mapDirect s2.data h2] at hdd
  cases s1 with
  | mk d1 =>
    cases s2 with
    | mk d2 =>
      simp only at hdd
      rw [hdd]

/-! ## Tilde-freeness of producible version strings -/

/-- Every character of `s` is the separator or lies in one of the
fragments of `pySplit sep s`. -/
theorem pySplit_mem (sep : Char) {s : List Char} {c : Char} (h : c ∈ s) :
    c = sep ∨ ∃ g ∈ pySplit sep s, c ∈ g := by
  induction s with
  | nil => cases h
  | cons a as ih =>
    by_cases ha : a = sep
    · subst ha
      rcases List.mem_cons.mp h with rfl | h2
      · exact Or.inl rfl
      · rcases ih h2 with h3 | ⟨g, hg, hcg⟩
        · exact Or.inl h3
        · refine Or.inr ⟨g, ?_, hcg⟩
          simp only [pySplit, if_pos rfl]
          exact List.mem_cons_of_mem _ hg
    · cases hsp : pySplit sep as with
      | nil => exact absurd hsp (pySplit_ne_nil sep as)
      | cons g gs =>
        have hsplit : pySplit sep (a :: as) = (a :: g) :: gs := by
          simp [pySplit, ha, hsp]
        rcases List.mem_cons.mp h with rfl | h2
        · exact Or.inr ⟨c :: g, by rw [hsplit]; exact List.mem_cons_self _ _,
            List.mem_cons_self _ _⟩
        · rcases ih h2 with h3 | ⟨g2, hg2, hcg2⟩
          · exact Or.inl h3
          · rw [hsp] at hg2
            rcases List.mem_cons.mp hg2 with rfl | hgs
            · exact Or.inr ⟨a :: g2, by rw [hsplit]; exact List.mem_cons_self _ _,
                List.mem_cons_of_mem _ hcg2⟩
            · exact Or.inr ⟨g2, by rw [hsplit]; exact List.mem_cons_of_mem _ hgs,
                hcg2⟩

/-- A full `VERSION_RE` match contains only digits and dots. -/
theorem isSemverL_chars {s : List Char} (h : isSemverL s = true) {c : Char}
    (hc : c ∈ s) : digitDot c = true := by
  unfold isSemverL at h
  simp only [Bool.and_eq_true, decide_eq_true_eq, List.all_eq_true] at h
  obtain ⟨-, hall⟩ := h
  rcases pySplit_mem '.' hc with rfl | ⟨g, hg, hcg⟩
  · decide
  · have hG := hall g hg
    unfold isDigitGroup at hG
    simp only [Bool.and_eq_true, List.all_eq_true] at hG
    have hd := hG.2 c hcg
    simp [digitDot, hd]

/-- A `[1-9][0-9]*` match contains no tilde. -/
theorem isPosIntL_chars {g : List Char} (h : isPosIntL g = true) {c : Char}
    (hc : c ∈ g) : c ≠ '~' := by
  match g with
  | [] => cases hc
  | c0 :: cs =>
    unfold isPosIntL at h
    simp only [Bool.and_eq_true, decide_eq_true_eq, List.all_eq_true] at h
    obtain ⟨⟨-, h2⟩, h3⟩ := h
    rcases List.mem_cons.mp hc with rfl | hmem
    · intro e
      rw [e] at h2
      exact absurd h2 (by decide)
    · intro e
      have hd := h3 c hmem
      rw [e] at hd
      exact absurd hd (by decide)

/-- Inversion of a successful release-pattern match. -/
theorem matchReleaseL_inv {s cap : List Char} (h : matchReleaseL s = some cap) :
    ∃ num, s.dropWhile digitDot = 'r' :: 'c' :: num ∧
      isSemverL (s.takeWhile digitDot) = true ∧ isPosIntL num = true := by
  unfold matchReleaseL at h
  split at h
  · rename_i num heq
    split at h
    · rename_i hcond
      simp only [Bool.and_eq_true] at hcond
      exact ⟨num, heq, hcond.1, hcond.2⟩
    · cases h
  · cases h

/-- A base version accepted by any of the four registry patterns
contains no tilde. -/
theorem matchAllowed_noTilde {re : BaseVersionRe} {base : String}
    {cap : Option String} (h : matchAllowed re base = some cap) :
    '~' ∉ base.data := by
  intro hmem
  have hsplit := List.takeWhile_append_dropWhile (p := digitDot) (l := base.data)
  cases re with
  | nextRe =>
    simp only [matchAllowed] at h
    split at h
    · rename_i hm
      unfold matchNextL at hm
      simp only [Bool.and_eq_true, decide_eq_true_eq] at hm
      obtain ⟨-, hdrop⟩ := hm
      rw [← hsplit] at hmem
      rcases List.mem_append.mp hmem with hmem1 | hmem2
      · exact absurd (List.mem_takeWhile_imp hmem1) (by decide)
      · rw [hdrop] at hmem2
        exact absurd hmem2 (by decide)
    · cases h
  | releaseRe =>
    simp only [matchAllowed] at h
    split at h
    · rename_i cap2 heq
      obtain ⟨num, hdrop, -, hnum⟩ := matchReleaseL_inv heq
      rw [← hsplit] at hmem
      rcases List.mem_append.mp hmem with hmem1 | hmem2
      · exact absurd (List.mem_takeWhile_imp hmem1) (by decide)
      · rw [hdrop] at hmem2
        rcases List.mem_cons.mp hmem2 with he | hmem3
        · exact absurd he (by decide)
        · rcases List.mem_cons.mp hmem3 with he | hmem4
          · exact absurd he (by decide)
          · exact isPosIntL_chars hnum hmem4 rfl
    · cases h
  | masterRe =>
    simp only [matchAllowed] at h
    split at h
    · rename_i hm
      exact absurd (isSemverL_chars hm hmem) (by decide)
    · cases h
  | hotfixRe =>
    simp only [matchAllowed] at h
    split at h
    · rename_i hm
      unfold matchHotfixL at hm
      simp only [Bool.and_eq_true, decide_eq_true_eq, List.all_eq_true] at hm
      obtain ⟨⟨-, hdrop⟩, hlast⟩ := hm
      rcases pySplit_mem '.' hmem with he | ⟨g, hg, hcg⟩
      · exact absurd he (by decide)
      · have hne := pySplit_ne_nil '.' base.data
        have hdec := List.dropLast_concat_getLast hne
        rw [← hdec] at hg
        rcases List.mem_append.mp hg with hg1 | hg2
        · have hG := hdrop g hg1
          unfold isDigitGroup at hG
          simp only [Bool.and_eq_true, List.all_eq_true] at hG
          have hd := hG.2 _ hcg
          exact absurd hd (by decide)
        · have hgl : g = (pySplit '.' base.data).getLast hne := by
            simpa using hg2
          have hgd : (pySplit '.' base.data).getLastD [] =
              (pySplit '.' base.data).getLast hne := by
            rw [List.getLastD_eq_getLast?, List.getLast?_eq_getLast _ hne]
            rfl
          rw [← hgd] at hgl
          rw [hgl] at hcg
          exact isPosIntL_chars hlast hcg rfl
    · cases h

/-- The decimal rendering of a natural number consists of digits. -/
theorem natToString_digits (n : Nat) {c : Char} (hc : c ∈ (toString n).data) :
    c.isDigit = true := by
  have hcore : ∀ (fuel m : Nat) (acc : List Char),
      (∀ x ∈ acc, Char.isDigit x = true) →
      ∀ x ∈ Nat.toDigitsCore 10 fuel m acc, Char.isDigit x = true := by
    intro fuel
    induction fuel with
    | zero => intro m acc hacc x hx; exact hacc x hx
    | succ f ih =>
      intro m acc hacc x hx
      have hd : (Nat.digitChar (m % 10)).isDigit = true := by
        have h10 : m % 10 < 10 := Nat.mod_lt _ (by omega)
        interval_cases h : m % 10 <;> decide
      rw [Nat.toDigitsCore] at hx
      split at hx
      · rcases List.mem_cons.mp hx with rfl | hx2
        · exact hd
        · exact hacc x hx2
      · refine ih (m / 10) _ ?_ x hx
        intro y hy
        rcases List.mem_cons.mp hy with rfl | hy2
        · exact hd
        · exact hacc y hy2
  exact hcore (n + 1) n [] (by intro x hx; cases hx) c hc

/-- Hexadecimal digit (as in a git SHA). -/
def isHexDigit (c : Char) : Bool :=
  c.isDigit || ('a' ≤ c && c ≤ 'f')

theorem isHexDigit_ne_tilde {c : Char} (h : isHexDigit c = true) : c ≠ '~' := by
  intro e
  rw [e] at h
  exact absurd h (by decide)

/-- A commit identifier derived by `get_commit_id` from hex SHAs contains
no tilde. -/
theorem get_commit_id_noTilde {c : Commit} {br r : String}
    (h : get_commit_id c br = .ok r)
    (hx : ∀ ch ∈ c.hexsha.data, isHexDigit ch = true)
    (hp : ∀ p ∈ c.parents, ∀ ch ∈ p.data, isHexDigit ch = true) :
    '~' ∉ r.data := by
  intro hmem
  unfold get_commit_id at h
  split at h
  · rename_i p
    rw [Except.ok.injEq] at h
    subst h
    have : '~' ∈ c.hexsha.data := List.mem_of_mem_take hmem
    exact isHexDigit_ne_tilde (hx _ this) rfl
  · rename_i pr1 pr2 hps
    split at h <;> rw [Except.ok.injEq] at h <;> subst h
    · rw [String.data_append, String.data_append] at hmem
      rcases List.mem_append.mp hmem with hmem1 | hmem2
      · rcases List.mem_append.mp hmem1 with hmem3 | hmem4
        · have h1 : '~' ∈ pr1.data := List.mem_of_mem_take hmem3
          exact isHexDigit_ne_tilde (hp pr1 (by rw [hps]; simp) _ h1) rfl
        · exact absurd hmem4 (by decide)
      · have h2 : '~' ∈ pr2.data := List.mem_of_mem_take hmem2
        exact isHexDigit_ne_tilde (hp pr2 (by rw [hps]; simp) _ h2) rfl
    · have : '~' ∈ c.hexsha.data := List.mem_of_mem_take hmem
      exact isHexDigit_ne_tilde (hx _ this) rfl
  · cases h

/-- Every string the generator produces (with a commit identifier coming
from `get_commit_id` over hex SHAs) is tilde-free. -/
theorem python_version_ok_noTilde {base : String} {vcs : VcsInfo}
    {mode v : String} (h : python_version base vcs mode = .ok v)
    (hrev : '~' ∉ vcs.revid.data) : '~' ∉ v.data := by
  intro hmem
  obtain ⟨btype, cap, -, hmatch, hbuild⟩ := python_version_ok_match base vcs mode v h
  have hbase : '~' ∉ base.data := matchAllowed_noTilde hmatch
  rcases build_version_ok_cases btype _ base vcs mode v hbuild with ⟨-, rfl⟩ | ⟨-, rfl⟩
  · exact hbase hmem
  · simp only [String.data_append] at hmem
    rcases List.mem_append.mp hmem with h1 | h2
    · rcases List.mem_append.mp h1 with h3 | h4
      · rcases List.mem_append.mp h3 with h5 | h6
        · rcases List.mem_append.mp h5 with h7 | h8
          · exact hbase h7
          · exact absurd h8 (by decide)
        · exact absurd (natToString_digits vcs.revno h6) (by decide)
      · exact absurd h4 (by decide)
    · exact hrev h2

/-- Counterexample to C3: `toPackageVersion` is *not* order-preserving
over the versions the generator can produce.  Both
`"0.14next_1_abcdef1"` and `"0.14next_1_1abcdef"` are produced by the
generator (feature branch, snapshot mode, commit identifiers derived by
`get_commit_id` from hex SHAs), the first sorts strictly below the
second under the setuptools artifact ordering, yet its image sorts
strictly *above* the second's image under the Debian comparison: a
commit identifier starting with a letter flips against one starting
with a digit when the two ecosystems rank letters against digits. -/
theorem c3_counterexample :
    python_version "0.14next" ⟨"feature-x", "abcdef1", 1, "/repo"⟩ "snapshot" =
      .ok "0.14next_1_abcdef1" ∧
    python_version "0.14next" ⟨"feature-x", "1abcdef", 1, "/repo"⟩ "snapshot" =
      .ok "0.14next_1_1abcdef" ∧
    get_commit_id ⟨"abcdef1234567", ["1234567abcdef"]⟩ "feature-x" =
      .ok "abcdef1" ∧
    get_commit_id ⟨"1abcdef234567", ["1234567abcdef"]⟩ "feature-x" =
      .ok "1abcdef" ∧
    vLt "0.14next_1_abcdef1" "0.14next_1_1abcdef" = true ∧
    debLt (debian_version_from_python_version "0.14next_1_abcdef1")
      (debian_version_from_python_version "0.14next_1_1abcdef") = false ∧
    debLt (debian_version_from_python_version "0.14next_1_1abcdef")
      (debian_version_from_python_version "0.14next_1_abcdef1") = true := by
  exact ⟨by rfl, by rfl, by rfl, by rfl, by decide, by decide, by decide⟩

/-- C3 as amended: `toPackageVersion`
(`debian_version_from_python_version`) is injective over the versions
the generator can actually produce — two distinct generator outputs,
each built with a commit identifier derived by `get_commit_id` from hex
SHAs, always map to distinct Debian versions.  (Order preservation,
the other half of the original claim, fails; see the counterexample.) -/
theorem c3_package_version_injective (base1 base2 mode1 mode2 s1 s2 : String)
    (v1 v2 : VcsInfo) (c1 c2 : Commit) (br1 br2 : String)
    (h1 : python_version base1 v1 mode1 = .ok s1)
    (h2 : python_version base2 v2 mode2 = .ok s2)
    (hg1 : get_commit_id c1 br1 = .ok v1.revid)
    (hg2 : get_commit_id c2 br2 = .ok v2.revid)
    (hx1 : ∀ ch ∈ c1.hexsha.data, isHexDigit ch = true)
    (hp1 : ∀ p ∈ c1.parents, ∀ ch ∈ p.data, isHexDigit ch = true)
    (hx2 : ∀ ch ∈ c2.hexsha.data, isHexDigit ch = true)
    (hp2 : ∀ p ∈ c2.parents, ∀ ch ∈ p.data, isHexDigit ch = true)
    (hne : s1 ≠ s2) :
    debian_version_from_python_version s1 ≠
      debian_version_from_python_version s2 := by
  intro heq
  have ht1 : '~' ∉ s1.data :=
    python_version_ok_noTilde h1 (get_commit_id_noTilde hg1 hx1 hp1)
  have ht2 : '~' ∉ s2.data :=
    python_version_ok_noTilde h2 (get_commit_id_noTilde hg2 hx2 hp2)
  exact hne (debian_mapper_injective_noTilde s1 s2 ht1 ht2 heq)

/-- Witness for C3's amended theorem at two concrete generator outputs:
`"0.14"` (master, release) and `"0.15"` map to distinct Debian
versions. -/
theorem c3_package_version_injective_witness :
    debian_version_from_python_version "0.14" ≠
      debian_version_from_python_version "0.15" :=
  c3_package_version_injective "0.14" "0.15" "release" "release" "0.14" "0.15"
    ⟨"master", "abcdef1", 5, "/repo"⟩ ⟨"master", "abcdef1", 6, "/repo"⟩
    ⟨"abcdef1234567", ["1234567abcdef"]⟩ ⟨"abcdef1234567", ["1234567abcdef"]⟩
    "master" "master" (by rfl) (by rfl) (by rfl) (by rfl)
    (by decide) (by decide) (by decide) (by decide) (by decide)

end Devflow
